import Mathlib

/-!
Verification of the supplier-registration backend
(`supabase/functions/submit-supplier/index.ts`) of hasapakia-connect.

The handler is embedded shallowly: the in-memory rate-limit map becomes an
association list, the zod schema becomes an explicit error-collecting
validator, the Deno/Supabase/Resend collaborators become an oracle record of
outcomes, and the handler itself becomes a pure function from a request, an
oracle and a rate-limit store to a result, an updated store and a list of
attempted side effects.
-/

set_option maxRecDepth 10000

/-! ## Rate limiter (`rateLimitStore`, `checkRateLimit`) -/

/-- One entry of the rate-limit map: `{ count, resetAt }`. -/
structure RLEntry where
  count : Nat
  resetAt : Nat
  deriving Repr, DecidableEq

/-- The in-memory `rateLimitStore : Map<string, {count, resetAt}>`,
embedded as an association list keyed by the client identifier. -/
abbrev RLStore := List (String × RLEntry)

/-- Lookup in the store, mirroring `rateLimitStore.get(ip)`. -/
def rlGet : RLStore → String → Option RLEntry
  | [], _ => none
  | (k, v) :: t, ip => if k = ip then some v else rlGet t ip

/-- Update in the store, mirroring `rateLimitStore.set(ip, entry)`
(replaces an existing binding, otherwise appends). -/
def rlSet : RLStore → String → RLEntry → RLStore
  | [], ip, v => [(ip, v)]
  | (k, w) :: t, ip, v => if k = ip then (ip, v) :: t else (k, w) :: rlSet t ip v

/-- The one-hour window length in milliseconds (`3600000`). -/
def windowMs : Nat := 3600000

/-- Mirrors `checkRateLimit(ip)`: on a missing or expired entry the counter
is reset to 1 with a new expiry at `now + 3600000` and the call is allowed;
within the window a count `≥ 3` denies without incrementing, otherwise the
count is incremented and the call is allowed.  The clock `Date.now()` is an
explicit argument. -/
def checkRateLimit (now : Nat) (ip : String) (s : RLStore) : Bool × RLStore :=
  match rlGet s ip with
  | none => (true, rlSet s ip ⟨1, now + windowMs⟩)
  | some e =>
    if now > e.resetAt then (true, rlSet s ip ⟨1, now + windowMs⟩)
    else if e.count ≥ 3 then (false, s)
    else (true, rlSet s ip ⟨e.count + 1, e.resetAt⟩)

/-- The store after one `checkRateLimit` call. -/
def rlStep (now : Nat) (ip : String) (s : RLStore) : RLStore :=
  (checkRateLimit now ip s).2

/-- The boolean verdict of one `checkRateLimit` call. -/
def rlAllowed (now : Nat) (ip : String) (s : RLStore) : Bool :=
  (checkRateLimit now ip s).1

/-- Run a whole sequence of `checkRateLimit` calls, each with its own clock
value and client identifier, starting from a given store. -/
def runRateLimit : List (Nat × String) → RLStore → RLStore
  | [], s => s
  | (t, ip) :: rest, s => runRateLimit rest (rlStep t ip s)

theorem checkRateLimit_of_none {s : RLStore} {ip : String} (now : Nat)
    (hg : rlGet s ip = none) :
    checkRateLimit now ip s = (true, rlSet s ip ⟨1, now + windowMs⟩) := by
  unfold checkRateLimit; rw [hg]

theorem checkRateLimit_of_expired {s : RLStore} {ip : String} {e : RLEntry} (now : Nat)
    (hg : rlGet s ip = some e) (h : now > e.resetAt) :
    checkRateLimit now ip s = (true, rlSet s ip ⟨1, now + windowMs⟩) := by
  unfold checkRateLimit; rw [hg]; simp [h]

theorem checkRateLimit_of_full {s : RLStore} {ip : String} {e : RLEntry} (now : Nat)
    (hg : rlGet s ip = some e) (h1 : ¬ now > e.resetAt) (h2 : e.count ≥ 3) :
    checkRateLimit now ip s = (false, s) := by
  unfold checkRateLimit; rw [hg]; simp [h1, h2]

theorem checkRateLimit_of_inc {s : RLStore} {ip : String} {e : RLEntry} (now : Nat)
    (hg : rlGet s ip = some e) (h1 : ¬ now > e.resetAt) (h2 : e.count < 3) :
    checkRateLimit now ip s = (true, rlSet s ip ⟨e.count + 1, e.resetAt⟩) := by
  unfold checkRateLimit; rw [hg]; simp [h1]
  omega

theorem rlGet_rlSet_self (s : RLStore) (ip : String) (v : RLEntry) :
    rlGet (rlSet s ip v) ip = some v := by
  induction s with
  | nil => simp [rlGet, rlSet]
  | cons h t ih =>
    obtain ⟨k, w⟩ := h
    by_cases hk : k = ip
    · simp [rlGet, rlSet, hk]
    · simp [rlGet, rlSet, hk, ih]

theorem mem_rlSet (s : RLStore) (ip : String) (v : RLEntry) (p : String × RLEntry)
    (h : p ∈ rlSet s ip v) : p = (ip, v) ∨ p ∈ s := by
  induction s with
  | nil => simp [rlSet] at h; simp [h]
  | cons hd t ih =>
    obtain ⟨k, w⟩ := hd
    by_cases hk : k = ip
    · simp [rlSet, hk] at h
      rcases h with h | h
      · exact Or.inl (by simp [h])
      · exact Or.inr (List.mem_cons_of_mem _ h)
    · simp [rlSet, hk] at h
      rcases h with h | h
      · exact Or.inr (by simp [h])
      · rcases ih h with h' | h'
        · exact Or.inl h'
        · exact Or.inr (List.mem_cons_of_mem _ h')

theorem rlGet_mem (s : RLStore) (ip : String) (e : RLEntry)
    (h : rlGet s ip = some e) : (ip, e) ∈ s := by
  induction s with
  | nil => simp [rlGet] at h
  | cons hd t ih =>
    obtain ⟨k, w⟩ := hd
    by_cases hk : k = ip
    · subst hk
      simp [rlGet] at h
      subst h
      exact List.mem_cons_self _ _
    · simp [rlGet, hk] at h
      exact List.mem_cons_of_mem _ (ih h)

/-- The per-entry invariant: every stored counter lies between 1 and 3. -/
def rlInv (s : RLStore) : Prop :=
  ∀ p ∈ s, 1 ≤ p.2.count ∧ p.2.count ≤ 3

theorem rlInv_step (now : Nat) (ip : String) (s : RLStore) (h : rlInv s) :
    rlInv (rlStep now ip s) := by
  unfold rlStep
  cases hg : rlGet s ip with
  | none =>
    rw [checkRateLimit_of_none now hg]
    intro p hp
    rcases mem_rlSet _ _ _ _ hp with rfl | hp'
    · exact ⟨le_refl 1, by norm_num⟩
    · exact h p hp'
  | some e =>
    by_cases h1 : now > e.resetAt
    · rw [checkRateLimit_of_expired now hg h1]
      intro p hp
      rcases mem_rlSet _ _ _ _ hp with rfl | hp'
      · exact ⟨le_refl 1, by norm_num⟩
      · exact h p hp'
    · by_cases h2 : e.count ≥ 3
      · rw [checkRateLimit_of_full now hg h1 h2]
        exact h
      · rw [checkRateLimit_of_inc now hg h1 (by omega)]
        intro p hp
        rcases mem_rlSet _ _ _ _ hp with rfl | hp'
        · have he := h (ip, e) (rlGet_mem s ip e hg)
          simp only at he ⊢
          omega
        · exact h p hp'

theorem rlInv_run (calls : List (Nat × String)) (s : RLStore) (h : rlInv s) :
    rlInv (runRateLimit calls s) := by
  induction calls generalizing s with
  | nil => exact h
  | cons c rest ih =>
    obtain ⟨t, ip⟩ := c
    exact ih _ (rlInv_step t ip s h)

/-! ## Filename sanitization and storage keys -/

/-- A character admitted unchanged by the sanitizer, i.e. matching the
regex class `[a-zA-Z0-9.-]` of `replace(/[^a-zA-Z0-9.-]/g, '_')`. -/
def isAllowedFileChar (c : Char) : Bool :=
  c.isAlphanum || c = '.' || c = '-'

/-- Mirrors `fileName.replace(/[^a-zA-Z0-9.-]/g, '_')`: every character
outside `[a-zA-Z0-9.-]` is replaced by an underscore. -/
def sanitizeFileName (s : String) : String :=
  ⟨s.data.map (fun c => if isAllowedFileChar c then c else '_')⟩

/-- Mirrors the storage-key construction used for the logo and the catalog
file: `` `${Date.now()}-${sanitizedFileName}` ``. -/
def mkStorageKey (now : Nat) (fileName : String) : String :=
  Nat.repr now ++ "-" ++ sanitizeFileName fileName

/-- Mirrors the storage-key construction used for product image `i`:
`` `${Date.now()}-${i}-${sanitizedFileName}` ``. -/
def mkImageKey (now : Nat) (i : Nat) (fileName : String) : String :=
  Nat.repr now ++ "-" ++ Nat.repr i ++ "-" ++ sanitizeFileName fileName

/-- A character matching the regex class `[A-Za-z0-9._-]` of the spec's
round-trip property. -/
def isStorageKeyChar (c : Char) : Bool :=
  c.isAlphanum || c = '.' || c = '_' || c = '-'

theorem digitChar_mod_isDigit (n : Nat) : (Nat.digitChar (n % 10)).isDigit = true := by
  have h : n % 10 < 10 := Nat.mod_lt _ (by norm_num)
  interval_cases h : n % 10 <;> rfl

theorem toDigitsCore_digits (fuel n : Nat) (ds : List Char)
    (h : ∀ c ∈ ds, c.isDigit = true) :
    ∀ c ∈ Nat.toDigitsCore 10 fuel n ds, c.isDigit = true := by
  induction fuel generalizing n ds with
  | zero => simpa [Nat.toDigitsCore] using h
  | succ fuel ih =>
    unfold Nat.toDigitsCore
    by_cases h0 : n / 10 = 0
    · simp only [h0, if_true]
      intro c hc
      rcases List.mem_cons.mp hc with rfl | hc'
      · exact digitChar_mod_isDigit n
      · exact h c hc'
    · simp only [h0, if_false]
      exact ih _ _ (by
        intro c hc
        rcases List.mem_cons.mp hc with rfl | hc'
        · exact digitChar_mod_isDigit n
        · exact h c hc')

theorem natRepr_digits (n : Nat) : ∀ c ∈ (Nat.repr n).data, c.isDigit = true := by
  have : (Nat.repr n).data = Nat.toDigits 10 n := rfl
  rw [this]
  exact toDigitsCore_digits _ _ _ (by intro c hc; simp at hc)

theorem sanitizeFileName_chars (s : String) :
    ∀ c ∈ (sanitizeFileName s).data, isStorageKeyChar c = true := by
  intro c hc
  simp only [sanitizeFileName] at hc
  rcases List.mem_map.mp hc with ⟨d, _, hd⟩
  by_cases hall : isAllowedFileChar d
  · rw [if_pos hall] at hd
    subst hd
    simp only [isAllowedFileChar, Bool.or_eq_true] at hall
    simp only [isStorageKeyChar, Bool.or_eq_true]
    tauto
  · rw [if_neg hall] at hd
    subst hd
    rfl

/-! ## HTML escaping (`escapeHtml`) -/

/-- The double-quote character. -/
def quoteChar : Char := Char.ofNat 34

/-- The apostrophe character. -/
def aposChar : Char := Char.ofNat 39

/-- The per-character replacement map of `escapeHtml`:
`& → &amp;`, `< → &lt;`, `> → &gt;`, `" → &quot;`, apostrophe → `&#039;`;
every other character is kept as is. -/
def escapeChar (c : Char) : List Char :=
  if c = '&' then ['&', 'a', 'm', 'p', ';']
  else if c = '<' then ['&', 'l', 't', ';']
  else if c = '>' then ['&', 'g', 't', ';']
  else if c = quoteChar then ['&', 'q', 'u', 'o', 't', ';']
  else if c = aposChar then ['&', '#', '0', '3', '9', ';']
  else [c]

/-- Character-list version of `text.replace(/[&<>"']/g, (char) => map[char])`. -/
def escapeHtmlList : List Char → List Char
  | [] => []
  | c :: t => escapeChar c ++ escapeHtmlList t

/-- Mirrors `escapeHtml(text)` from the handler. -/
def escapeHtml (s : String) : String :=
  ⟨escapeHtmlList s.data⟩

/-- An HTML-entity parser inverting `escapeHtml`: each of the five entity
spellings produced by `escapeChar` is decoded back to its character, and any
other character is passed through unchanged. -/
def unescapeHtmlList : List Char → List Char
  | [] => []
  | c :: t =>
    if c = '&' then
      if t.take 4 = ['a', 'm', 'p', ';'] then '&' :: unescapeHtmlList (t.drop 4)
      else if t.take 3 = ['l', 't', ';'] then '<' :: unescapeHtmlList (t.drop 3)
      else if t.take 3 = ['g', 't', ';'] then '>' :: unescapeHtmlList (t.drop 3)
      else if t.take 5 = ['q', 'u', 'o', 't', ';'] then quoteChar :: unescapeHtmlList (t.drop 5)
      else if t.take 5 = ['#', '0', '3', '9', ';'] then aposChar :: unescapeHtmlList (t.drop 5)
      else c :: unescapeHtmlList t
    else c :: unescapeHtmlList t
  termination_by l => l.length
  decreasing_by all_goals simp <;> omega

/-- String version of the entity parser. -/
def unescapeHtml (s : String) : String :=
  ⟨unescapeHtmlList s.data⟩

/-- A character list in which none of the five escaped characters occurs
raw: every `&` starts one of the five entity spellings, and `<`, `>`, the
double quote and the apostrophe never occur at all. -/
inductive EscapedForm : List Char → Prop
  | nil : EscapedForm []
  | plain (c : Char) (t : List Char) :
      c ≠ '&' → c ≠ '<' → c ≠ '>' → c ≠ quoteChar → c ≠ aposChar →
      EscapedForm t → EscapedForm (c :: t)
  | amp (t : List Char) : EscapedForm t →
      EscapedForm ('&' :: 'a' :: 'm' :: 'p' :: ';' :: t)
  | lt (t : List Char) : EscapedForm t →
      EscapedForm ('&' :: 'l' :: 't' :: ';' :: t)
  | gt (t : List Char) : EscapedForm t →
      EscapedForm ('&' :: 'g' :: 't' :: ';' :: t)
  | quot (t : List Char) : EscapedForm t →
      EscapedForm ('&' :: 'q' :: 'u' :: 'o' :: 't' :: ';' :: t)
  | apos (t : List Char) : EscapedForm t →
      EscapedForm ('&' :: '#' :: '0' :: '3' :: '9' :: ';' :: t)

theorem escapedForm_escapeHtmlList (l : List Char) : EscapedForm (escapeHtmlList l) := by
  induction l with
  | nil => exact EscapedForm.nil
  | cons c t ih =>
    show EscapedForm (escapeChar c ++ escapeHtmlList t)
    by_cases h1 : c = '&'
    · simp [escapeChar, h1]; exact EscapedForm.amp _ ih
    · by_cases h2 : c = '<'
      · simp [escapeChar, h1, h2]; exact EscapedForm.lt _ ih
      · by_cases h3 : c = '>'
        · simp [escapeChar, h1, h2, h3]; exact EscapedForm.gt _ ih
        · by_cases h4 : c = quoteChar
          · simp [escapeChar, h1, h2, h3, h4]; exact EscapedForm.quot _ ih
          · by_cases h5 : c = aposChar
            · simp [escapeChar, h1, h2, h3, h4, h5]; exact EscapedForm.apos _ ih
            · simp [escapeChar, h1, h2, h3, h4, h5]
              exact EscapedForm.plain c _ h1 h2 h3 h4 h5 ih

theorem unescape_amp (r : List Char) :
    unescapeHtmlList ('&' :: 'a' :: 'm' :: 'p' :: ';' :: r) = '&' :: unescapeHtmlList r := by
  rw [unescapeHtmlList]; simp

theorem unescape_lt (r : List Char) :
    unescapeHtmlList ('&' :: 'l' :: 't' :: ';' :: r) = '<' :: unescapeHtmlList r := by
  rw [unescapeHtmlList]; simp

theorem unescape_gt (r : List Char) :
    unescapeHtmlList ('&' :: 'g' :: 't' :: ';' :: r) = '>' :: unescapeHtmlList r := by
  rw [unescapeHtmlList]; simp

theorem unescape_quot (r : List Char) :
    unescapeHtmlList ('&' :: 'q' :: 'u' :: 'o' :: 't' :: ';' :: r)
      = quoteChar :: unescapeHtmlList r := by
  rw [unescapeHtmlList]; simp

theorem unescape_apos (r : List Char) :
    unescapeHtmlList ('&' :: '#' :: '0' :: '3' :: '9' :: ';' :: r)
      = aposChar :: unescapeHtmlList r := by
  rw [unescapeHtmlList]; simp

theorem unescape_cons_ne (c : Char) (t : List Char) (h : c ≠ '&') :
    unescapeHtmlList (c :: t) = c :: unescapeHtmlList t := by
  rw [unescapeHtmlList]; simp [h]

theorem unescape_escape (l : List Char) :
    unescapeHtmlList (escapeHtmlList l) = l := by
  induction l with
  | nil =>
    rw [show escapeHtmlList [] = [] from rfl, unescapeHtmlList]
  | cons c t ih =>
    show unescapeHtmlList (escapeChar c ++ escapeHtmlList t) = c :: t
    by_cases h1 : c = '&'
    · subst h1
      rw [show escapeChar '&' = ['&', 'a', 'm', 'p', ';'] from by decide]
      simp only [List.cons_append, List.nil_append]
      rw [unescape_amp, ih]
    · by_cases h2 : c = '<'
      · subst h2
        rw [show escapeChar '<' = ['&', 'l', 't', ';'] from by decide]
        simp only [List.cons_append, List.nil_append]
        rw [unescape_lt, ih]
      · by_cases h3 : c = '>'
        · subst h3
          rw [show escapeChar '>' = ['&', 'g', 't', ';'] from by decide]
          simp only [List.cons_append, List.nil_append]
          rw [unescape_gt, ih]
        · by_cases h4 : c = quoteChar
          · subst h4
            rw [show escapeChar quoteChar = ['&', 'q', 'u', 'o', 't', ';'] from by decide]
            simp only [List.cons_append, List.nil_append]
            rw [unescape_quot, ih]
          · by_cases h5 : c = aposChar
            · subst h5
              rw [show escapeChar aposChar = ['&', '#', '0', '3', '9', ';'] from by decide]
              simp only [List.cons_append, List.nil_append]
              rw [unescape_apos, ih]
            · simp only [escapeChar, h1, h2, h3, h4, h5, if_false, List.singleton_append]
              rw [unescape_cons_ne c _ h1, ih]

theorem escapeHtmlList_no_raw (l : List Char) :
    (escapeHtmlList l).all
      (fun c => !(c = '<' || c = '>' || c = quoteChar || c = aposChar)) = true := by
  induction l with
  | nil => rfl
  | cons c t ih =>
    show (escapeChar c ++ escapeHtmlList t).all _ = true
    rw [List.all_append, ih, Bool.and_true]
    by_cases h1 : c = '&'
    · simp [escapeChar, h1, quoteChar, aposChar]
    · by_cases h2 : c = '<'
      · simp [escapeChar, h1, h2, quoteChar, aposChar]
      · by_cases h3 : c = '>'
        · simp [escapeChar, h1, h2, h3, quoteChar, aposChar]
        · by_cases h4 : c = quoteChar
          · simp [escapeChar, h1, h2, h3, h4, quoteChar, aposChar]
          · by_cases h5 : c = aposChar
            · simp [escapeChar, h1, h2, h3, h4, h5, quoteChar, aposChar]
            · simp [escapeChar, h1, h2, h3, h4, h5]

/-! ## File inspector (`validateFileMimeType`, `validateFileSize`) -/

/-- A `data:<mime-type>;base64,<encoded-bytes>` payload, embedded
structurally: `mime` is the content-type tag extracted by the regex
`^data:([^;]+);base64,` (`none` when the header is absent or malformed),
and `content` is the base64 text after the first comma
(`base64Data.split(',')[1]`). -/
structure DataUrl where
  mime : Option String
  content : String
  deriving Repr, DecidableEq

/-- `ALLOWED_MIME_TYPES`. -/
def ALLOWED_MIME_TYPES : List String :=
  ["image/jpeg", "image/jpg", "image/png", "image/webp", "image/gif"]

/-- `ALLOWED_CATALOG_TYPES = [...ALLOWED_MIME_TYPES, "application/pdf"]`. -/
def ALLOWED_CATALOG_TYPES : List String :=
  ALLOWED_MIME_TYPES ++ ["application/pdf"]

/-- `MAX_FILE_SIZE = 5 * 1024 * 1024`. -/
def MAX_FILE_SIZE : Nat := 5 * 1024 * 1024

/-- Mirrors `validateFileMimeType(base64Data, allowedTypes)`: a missing
content-type tag is invalid with no reported type; otherwise the tag is
checked for membership in the allow-list and reported back. -/
def validateFileMimeType (f : DataUrl) (allowedTypes : List String) :
    Bool × Option String :=
  match f.mime with
  | none => (false, none)
  | some m => (allowedTypes.contains m, some m)

/-- Mirrors `validateFileSize(base64Data)`: the decoded size is computed as
`base64Content.length * 3 / 4` and compared against `MAX_FILE_SIZE`.  The
exact rational comparison `len * 3 / 4 ≤ MAX` is expressed
denominator-free as `len * 3 ≤ MAX * 4`. -/
def validateFileSize (f : DataUrl) : Bool :=
  f.content.length * 3 ≤ MAX_FILE_SIZE * 4

/-- The per-slot inspection sequence the handler runs before every upload:
first `validateFileSize`, then `validateFileMimeType` against the slot's
allow-list; on success the declared MIME type is returned (with the slot's
fallback content type, unreachable on the success path). -/
def inspectFile (f : DataUrl) (allowedTypes : List String)
    (sizeMsg typeMsg fallbackType : String) : Except String String :=
  if !validateFileSize f then .error sizeMsg
  else
    let r := validateFileMimeType f allowedTypes
    if !r.1 then .error typeMsg
    else .ok (r.2.getD fallbackType)

theorem inspectFile_size_first (f : DataUrl) (allowedTypes : List String)
    (sizeMsg typeMsg fallbackType : String)
    (h : f.content.length * 3 > MAX_FILE_SIZE * 4) :
    inspectFile f allowedTypes sizeMsg typeMsg fallbackType = .error sizeMsg := by
  unfold inspectFile validateFileSize
  have : ¬ (f.content.length * 3 ≤ MAX_FILE_SIZE * 4) := by omega
  simp [this]

theorem inspectFile_bad_type (f : DataUrl) (allowedTypes : List String)
    (sizeMsg typeMsg fallbackType : String)
    (hsz : f.content.length * 3 ≤ MAX_FILE_SIZE * 4)
    (hmime : f.mime = none ∨ ∃ m, f.mime = some m ∧ allowedTypes.contains m = false) :
    inspectFile f allowedTypes sizeMsg typeMsg fallbackType = .error typeMsg := by
  unfold inspectFile validateFileSize validateFileMimeType
  rcases hmime with hm | ⟨m, hm, hmem⟩
  · simp [hsz, hm]
  · have hnm : m ∉ allowedTypes := by
      intro hmem'
      have : allowedTypes.contains m = true := List.elem_eq_true_of_mem hmem'
      rw [hmem] at this
      exact Bool.false_ne_true this
    simp [hsz, hm, hnm]

/-! ## Input validator (the zod `supplierSchema`)

The schema itself lives in the handler source; its runtime semantics are
those of the zod 3.22.4 library it is built on: per string field the check
chain runs in order, each failing check contributing one issue for that
field's path, with `.trim()` applied as a value transform before the later
checks; a missing required field contributes a single `Required` issue; an
`.optional().or(z.literal(""))` union contributes a single `Invalid input`
issue when both branches fail. -/

/-- Models JavaScript `String.prototype.trim` / zod's `.trim()` transform:
leading and trailing whitespace characters are removed. -/
def jsTrim (s : String) : String :=
  ⟨((s.data.dropWhile Char.isWhitespace).reverse.dropWhile Char.isWhitespace).reverse⟩

/-- Split a character list at every occurrence of a separator. -/
def splitOnChar (sep : Char) : List Char → List (List Char)
  | [] => [[]]
  | c :: t =>
    if c = sep then [] :: splitOnChar sep t
    else
      match splitOnChar sep t with
      | h :: r => (c :: h) :: r
      | [] => [[c]]

/-- A character allowed as the final character of the local part of an
email address by zod's email regular expression: `[A-Za-z0-9_+-]`. -/
def isEmailSymChar (c : Char) : Bool :=
  c.isAlphanum || c = '_' || c = '+' || c = '-'

/-- A character allowed anywhere in the local part: additionally the dot
and the apostrophe. -/
def isEmailLocalChar (c : Char) : Bool :=
  isEmailSymChar c || c = '.' || c = aposChar

/-- No two consecutive dots, the `(?!.*\.\.)` lookahead. -/
def noDoubleDot : List Char → Bool
  | [] => true
  | [_] => true
  | a :: b :: t => !((a == '.') && (b == '.')) && noDoubleDot (b :: t)

/-- The local part `(?!\.)([A-Za-z0-9_'+\-\.]*)[A-Za-z0-9_+-]`: nonempty,
made of local characters, not starting with a dot, ending in a symbol
character. -/
def validEmailLocal (l : List Char) : Bool :=
  match l with
  | [] => false
  | c :: _ =>
    !(c == '.') && l.all isEmailLocalChar &&
      (match l.getLast? with
       | some d => isEmailSymChar d
       | none => false)

/-- One non-final domain label `[A-Za-z0-9][A-Za-z0-9-]*`. -/
def validEmailLabel (l : List Char) : Bool :=
  match l with
  | [] => false
  | c :: t => c.isAlphanum && t.all (fun d => d.isAlphanum || d = '-')

/-- The domain `([A-Za-z0-9][A-Za-z0-9-]*\.)+[A-Za-z]{2,}`. -/
def validEmailDomain (l : List Char) : Bool :=
  let labels := splitOnChar '.' l
  match labels.getLast? with
  | none => false
  | some tld =>
    decide (2 ≤ labels.length) && labels.dropLast.all validEmailLabel &&
      decide (2 ≤ tld.length) && tld.all Char.isAlpha

/-- Modelled from zod 3.22.4's email regular expression
`^(?!\.)(?!.*\.\.)([A-Za-z0-9_'+\-\.]*)[A-Za-z0-9_+-]@([A-Za-z0-9][A-Za-z0-9-]*\.)+[A-Za-z]{2,}$`
(zod is an external library dependency of the handler, imported by URL). -/
def isValidEmail (s : String) : Bool :=
  match splitOnChar '@' s.data with
  | [loc, dom] => validEmailLocal loc && validEmailDomain dom && noDoubleDot s.data
  | _ => false

/-- One issue of a failed parse: the field path and the human message. -/
structure FieldError where
  path : String
  message : String
  deriving Repr, DecidableEq

/-- Issues of a required `z.string().trim().min(1, minMsg).max(maxLen, maxMsg)`
field: a missing field yields the single `Required` issue; a present value
is trimmed and then each failing check contributes one issue. -/
def reqStrErrors (field : String) (v : Option String) (minMsg maxMsg : String)
    (maxLen : Nat) : List FieldError :=
  match v with
  | none => [⟨field, "Required"⟩]
  | some s =>
    (if (jsTrim s).length < 1 then [⟨field, minMsg⟩] else []) ++
      (if (jsTrim s).length > maxLen then [⟨field, maxMsg⟩] else [])

/-- Issues of `z.string().trim().email("Invalid email address").max(255, ...)`. -/
def emailErrors (field : String) (v : Option String) : List FieldError :=
  match v with
  | none => [⟨field, "Required"⟩]
  | some s =>
    (if !isValidEmail (jsTrim s) then [⟨field, "Invalid email address"⟩] else []) ++
      (if (jsTrim s).length > 255 then [⟨field, "Email too long"⟩] else [])

/-- Issues of a required `z.array(z.string()).min(1, minMsg).max(20, maxMsg)`
field. -/
def reqArrErrors (field : String) (v : Option (List String)) (minMsg maxMsg : String) :
    List FieldError :=
  match v with
  | none => [⟨field, "Required"⟩]
  | some l =>
    (if l.length < 1 then [⟨field, minMsg⟩] else []) ++
      (if l.length > 20 then [⟨field, maxMsg⟩] else [])

/-- Issues of `z.string().trim().max(maxLen, ...).optional().or(z.literal(""))`:
absent is fine; a present value passes when the trimmed string is within the
bound (first union branch) or is the empty literal (second branch), and
otherwise contributes zod's single `invalid_union` issue. -/
def optBoundedErrors (field : String) (v : Option String) (maxLen : Nat) :
    List FieldError :=
  match v with
  | none => []
  | some s =>
    if (jsTrim s).length ≤ maxLen then []
    else if s = "" then []
    else [⟨field, "Invalid input"⟩]

/-- Issues of `z.enum(["text", "file", "drive", ""]).optional()`. -/
def enumErrors (field : String) (v : Option String) (allowed : List String) :
    List FieldError :=
  match v with
  | none => []
  | some s => if allowed.contains s then [] else [⟨field, "Invalid enum value"⟩]

/-- The raw request body, after JSON parsing, as consumed by
`supplierSchema.safeParse`.  `none` stands for an absent (or `null`) field;
file payloads are already in their structural `DataUrl` form. -/
structure RawSubmission where
  businessName : Option String
  companyId : Option String
  contactName : Option String
  phone : Option String
  email : Option String
  about : Option String
  categories : Option (List String)
  activityAreas : Option (List String)
  website : Option String
  instagram : Option String
  mainAddress : Option String
  logoFile : Option DataUrl
  logoFileName : Option String
  productImagesFiles : Option (List DataUrl)
  productImagesFileNames : Option (List String)
  productCatalogType : Option String
  productCatalogText : Option String
  productCatalogFile : Option DataUrl
  productCatalogFileName : Option String
  productCatalogDriveLink : Option String
  deriving Repr, DecidableEq

/-- All issues of `supplierSchema.safeParse`, in schema field order.
`logoFile`, `logoFileName`, `productImagesFiles`, `productImagesFileNames`,
`productCatalogFile` and `productCatalogFileName` carry no checks, so they
never contribute an issue; in particular the schema imposes no upper bound
on the number of product images. -/
def collectErrors (r : RawSubmission) : List FieldError :=
  reqStrErrors "businessName" r.businessName
      "Business name is required" "Business name too long" 200 ++
    optBoundedErrors "companyId" r.companyId 50 ++
    reqStrErrors "contactName" r.contactName
      "Contact name is required" "Contact name too long" 100 ++
    reqStrErrors "phone" r.phone "Phone is required" "Phone number too long" 20 ++
    emailErrors "email" r.email ++
    reqStrErrors "about" r.about
      "About section is required" "About section too long" 2000 ++
    reqArrErrors "categories" r.categories
      "At least one category required" "Too many categories" ++
    reqArrErrors "activityAreas" r.activityAreas
      "At least one activity area required" "Too many activity areas" ++
    optBoundedErrors "website" r.website 500 ++
    optBoundedErrors "instagram" r.instagram 500 ++
    reqStrErrors "mainAddress" r.mainAddress
      "Main address is required" "Main address text too long" 500 ++
    enumErrors "productCatalogType" r.productCatalogType ["text", "file", "drive", ""] ++
    optBoundedErrors "productCatalogText" r.productCatalogText 5000 ++
    optBoundedErrors "productCatalogDriveLink" r.productCatalogDriveLink 1000

/-- The parsed output of a successful `supplierSchema.safeParse`: trimmed
strings, array defaults applied. -/
structure FormData where
  businessName : String
  companyId : Option String
  contactName : String
  phone : String
  email : String
  about : String
  categories : List String
  activityAreas : List String
  website : Option String
  instagram : Option String
  mainAddress : String
  logoFile : Option DataUrl
  logoFileName : Option String
  productImagesFiles : List DataUrl
  productImagesFileNames : List String
  productCatalogType : Option String
  productCatalogText : Option String
  productCatalogFile : Option DataUrl
  productCatalogFileName : Option String
  productCatalogDriveLink : Option String
  deriving Repr, DecidableEq

/-- The value produced on a successful parse: `.trim()` transforms applied
to the trimmed string fields, `.default([])` applied to the image arrays. -/
def buildFormData (r : RawSubmission) : FormData where
  businessName := jsTrim (r.businessName.getD "")
  companyId := r.companyId.map jsTrim
  contactName := jsTrim (r.contactName.getD "")
  phone := jsTrim (r.phone.getD "")
  email := jsTrim (r.email.getD "")
  about := jsTrim (r.about.getD "")
  categories := r.categories.getD []
  activityAreas := r.activityAreas.getD []
  website := r.website.map jsTrim
  instagram := r.instagram.map jsTrim
  mainAddress := jsTrim (r.mainAddress.getD "")
  logoFile := r.logoFile
  logoFileName := r.logoFileName
  productImagesFiles := r.productImagesFiles.getD []
  productImagesFileNames := r.productImagesFileNames.getD []
  productCatalogType := r.productCatalogType
  productCatalogText := r.productCatalogText.map jsTrim
  productCatalogFile := r.productCatalogFile
  productCatalogFileName := r.productCatalogFileName
  productCatalogDriveLink := r.productCatalogDriveLink.map jsTrim

/-- Mirrors `supplierSchema.safeParse(rawData)`: all issues are collected in
one pass; the parse succeeds exactly when there is none. -/
def validateSupplier (r : RawSubmission) : Except (List FieldError) FormData :=
  match collectErrors r with
  | [] => .ok (buildFormData r)
  | e :: rest => .error (e :: rest)

/-- Number of issues reported for one field path. -/
def errCount (errs : List FieldError) (field : String) : Nat :=
  (errs.filter (fun e => e.path = field)).length

/-! ## Submission pipeline (the `handler`) -/

/-- JavaScript `value || null` for an optional string field. -/
def orNullOpt : Option String → Option String
  | none => none
  | some s => if s = "" then none else some s

/-- The persisted supplier row (the `.insert({...})` argument plus the
generated id is returned separately). -/
structure SupplierRecord where
  business_name : String
  company_id : Option String
  contact_name : String
  phone : String
  email : String
  about : String
  categories : List String
  activity_areas : List String
  website : Option String
  instagram : Option String
  main_address : Option String
  logo_url : Option String
  product_images_url : Option (List String)
  product_catalog_text : Option String
  product_catalog_url : Option String
  product_catalog_drive_link : Option String
  status : String
  deriving Repr, DecidableEq

/-- Mirrors the insert payload built in step 7. -/
def mkRecord (fd : FormData) (logoUrl : Option String)
    (productImageUrls : List String) (productCatalogUrl : Option String) :
    SupplierRecord where
  business_name := fd.businessName
  company_id := orNullOpt fd.companyId
  contact_name := fd.contactName
  phone := fd.phone
  email := fd.email
  about := fd.about
  categories := fd.categories
  activity_areas := fd.activityAreas
  website := orNullOpt fd.website
  instagram := orNullOpt fd.instagram
  main_address := if fd.mainAddress = "" then none else some fd.mainAddress
  logo_url := logoUrl
  product_images_url :=
    if productImageUrls.length > 0 then some productImageUrls else none
  product_catalog_text := orNullOpt fd.productCatalogText
  product_catalog_url := productCatalogUrl
  product_catalog_drive_link := orNullOpt fd.productCatalogDriveLink
  status := "pending"

/-- A side effect attempted against a collaborator. -/
inductive Effect
  | upload (bucket : String) (key : String) (contentType : String)
  | insert (row : SupplierRecord)
  | sendEmail (recipients : List String)
  deriving Repr, DecidableEq

/-- Outcomes of the external collaborators and the clock, fixed per
request: `Date.now()`, the three storage buckets' upload results, the
database insert result (the generated row id on success) and the two
Resend sends. -/
structure Oracle where
  now : Nat
  logoUpload : Except String Unit
  imageUpload : Nat → Except String Unit
  catalogUpload : Except String Unit
  dbResult : Except String Nat
  adminEmail : Except String Unit
  customerEmail : Except String Unit

/-- Models `supabase.storage.from(bucket).getPublicUrl(key)`, which is a
deterministic URL construction. -/
def mkPublicUrl (bucket key : String) : String :=
  "https://storage.example/" ++ bucket ++ "/" ++ key

/-- Substring test on character lists (JavaScript `String.includes`). -/
def containsSub : List Char → List Char → Bool
  | [], needle => needle.isEmpty
  | h :: t, needle => needle.isPrefixOf (h :: t) || containsSub t needle

/-- `haystack.includes(needle)` for strings. -/
def strIncludes (haystack needle : String) : Bool :=
  containsSub haystack.data needle.data

/-- Mirrors the `catch` block's message policy: the internal message is
surfaced only when it contains one of the substrings `"file"`, `"Invalid"`,
`"limit"`, `"Too many"`; otherwise the generic message is returned. -/
def classifyError (msg : String) : String :=
  if strIncludes msg "file" || strIncludes msg "Invalid" ||
      strIncludes msg "limit" || strIncludes msg "Too many" then msg
  else "An error occurred while processing your request"

/-- Joins an allow-list with `", "`, as in `ALLOWED_MIME_TYPES.join(", ")`. -/
def joinComma : List String → String
  | [] => ""
  | [s] => s
  | s :: t => s ++ ", " ++ joinComma t

/-- The logo slot (step 4): when a logo payload and a nonempty filename are
present, inspect size then MIME type against `ALLOWED_MIME_TYPES`, build
the `supplier-logos` storage key and attempt the upload; any failure throws
the slot's message.  Returns the captured public URL and the attempted
effects. -/
def processLogo (o : Oracle) (fd : FormData) :
    Except String (Option String) × List Effect :=
  match fd.logoFile, fd.logoFileName with
  | some f, some nm =>
    if nm = "" then (.ok none, [])
    else
      match inspectFile f ALLOWED_MIME_TYPES "Logo file size exceeds 5MB limit"
        ("Invalid logo file type. Allowed types: " ++ joinComma ALLOWED_MIME_TYPES)
        "image/jpeg" with
      | .error m => (.error m, [])
      | .ok contentType =>
        let key := mkStorageKey o.now nm
        let eff := [Effect.upload "supplier-logos" key contentType]
        match o.logoUpload with
        | .error e => (.error ("Logo upload failed: " ++ e), eff)
        | .ok _ => (.ok (some (mkPublicUrl "supplier-logos" key)), eff)
  | _, _ => (.ok none, [])

/-- The filename used for product image `i`:
`` productImagesFileNames?.[i] || `image-${i}.jpg` ``. -/
def imageName (names : List String) (i : Nat) : String :=
  let n := names.getD i ""
  if n = "" then "image-" ++ Nat.repr i ++ ".jpg" else n

/-- The product-image loop (step 5), starting at index `i`: each file in
order is size- and MIME-checked, keyed under `supplier-products` and
uploaded; the public URLs are collected in input order.  The loop has no
cap on the number of images. -/
def processImages (o : Oracle) (files : List DataUrl) (names : List String)
    (i : Nat) : Except String (List String) × List Effect :=
  match files with
  | [] => (.ok [], [])
  | f :: rest =>
    match inspectFile f ALLOWED_MIME_TYPES
      ("Product image " ++ Nat.repr (i + 1) ++ " exceeds 5MB limit")
      ("Invalid file type for product image " ++ Nat.repr (i + 1) ++
        ". Allowed: " ++ joinComma ALLOWED_MIME_TYPES)
      "image/jpeg" with
    | .error m => (.error m, [])
    | .ok contentType =>
      let key := mkImageKey o.now i (imageName names i)
      let eff := Effect.upload "supplier-products" key contentType
      match o.imageUpload i with
      | .error e =>
        (.error ("Product image " ++ Nat.repr (i + 1) ++ " upload failed: " ++ e), [eff])
      | .ok _ =>
        match processImages o rest names (i + 1) with
        | (.error m, effs) => (.error m, eff :: effs)
        | (.ok urls, effs) =>
          (.ok (mkPublicUrl "supplier-products" key :: urls), eff :: effs)

/-- The catalog-file slot (step 6): like the logo slot but against
`ALLOWED_CATALOG_TYPES`, keyed under `supplier-products`, with
`application/pdf` as the fallback content type.  The declared
`productCatalogType` field is never consulted. -/
def processCatalog (o : Oracle) (fd : FormData) :
    Except String (Option String) × List Effect :=
  match fd.productCatalogFile, fd.productCatalogFileName with
  | some f, some nm =>
    if nm = "" then (.ok none, [])
    else
      match inspectFile f ALLOWED_CATALOG_TYPES "Product catalog file size exceeds 5MB limit"
        ("Invalid catalog file type. Allowed types: " ++ joinComma ALLOWED_CATALOG_TYPES)
        "application/pdf" with
      | .error m => (.error m, [])
      | .ok contentType =>
        let key := mkStorageKey o.now nm
        let eff := [Effect.upload "supplier-products" key contentType]
        match o.catalogUpload with
        | .error e => (.error ("Product catalog upload failed: " ++ e), eff)
        | .ok _ => (.ok (some (mkPublicUrl "supplier-products" key)), eff)
  | _, _ => (.ok none, [])

/-- The fixed internal notification recipients. -/
def adminRecipients : List String :=
  ["ychelly.work@gmail.com", "yakir.rotem@gmail.com", "doron.d.sahar@gmail.com"]

/-- The handler result, one per terminal state of the pipeline. -/
inductive HandlerResult
  | corsPreflight
  | rateLimited
  | validationFailed (fields : List FieldError)
  | success (supplierId : Nat)
  | processingFailed (message : String)
  deriving Repr, DecidableEq

/-- Steps 4–9 for validated form data: logo, product images, catalog file,
database insert, then both notification sends.  An email error is only
logged — it never changes the outcome; a thrown message is returned as
`.error` together with the effects attempted so far. -/
def handlerBody (o : Oracle) (fd : FormData) :
    Except String HandlerResult × List Effect :=
  match processLogo o fd with
  | (.error m, e1) => (.error m, e1)
  | (.ok logoUrl, e1) =>
    match processImages o fd.productImagesFiles fd.productImagesFileNames 0 with
    | (.error m, e2) => (.error m, e1 ++ e2)
    | (.ok urls, e2) =>
      match processCatalog o fd with
      | (.error m, e3) => (.error m, e1 ++ e2 ++ e3)
      | (.ok catUrl, e3) =>
        let row := mkRecord fd logoUrl urls catUrl
        let e4 := [Effect.insert row]
        match o.dbResult with
        | .error e => (.error ("Database insert failed: " ++ e), e1 ++ e2 ++ e3 ++ e4)
        | .ok supplierId =>
          let e5 := [Effect.sendEmail adminRecipients, Effect.sendEmail [fd.email]]
          (.ok (.success supplierId), e1 ++ e2 ++ e3 ++ e4 ++ e5)

/-- The request as far as the handler inspects it. -/
structure Request where
  method : String
  forwardedFor : Option String
  body : Except String RawSubmission

/-- Mirrors `req.headers.get("x-forwarded-for")?.split(",")[0] || "unknown"`. -/
def clientIp (req : Request) : String :=
  match req.forwardedFor with
  | none => "unknown"
  | some h =>
    let p : String := ⟨h.data.takeWhile (fun c => !(c == ','))⟩
    if p = "" then "unknown" else p

/-- The whole handler: OPTIONS preflight, rate-limit gate, JSON parse,
schema validation, then steps 4–9 under the top-level `catch` that maps a
thrown message through `classifyError`.  Returns the result, the updated
rate-limit store and the attempted effects. -/
def handler (req : Request) (o : Oracle) (s : RLStore) :
    HandlerResult × RLStore × List Effect :=
  if req.method = "OPTIONS" then (.corsPreflight, s, [])
  else
    let gate := checkRateLimit o.now (clientIp req) s
    if !gate.1 then (.rateLimited, gate.2, [])
    else
      match req.body with
      | .error msg => (.processingFailed (classifyError msg), gate.2, [])
      | .ok raw =>
        match validateSupplier raw with
        | .error errs => (.validationFailed errs, gate.2, [])
        | .ok fd =>
          match handlerBody o fd with
          | (.ok res, eff) => (res, gate.2, eff)
          | (.error m, eff) => (.processingFailed (classifyError m), gate.2, eff)

/-! ## Client-side form validation (the 10-image cap)

`validateForm` in `src/components/SupplierRegistrationForm.tsx` is the only
place a product-image count cap exists; the backend schema and loop have
none. -/

/-- The `productImages` clause of the client form's `validateForm`, given
the selected files' sizes in bytes: an oversize message may be set first
and is overwritten by the too-many message when more than 10 files are
selected. -/
def clientProductImagesError (sizes : List Nat) : Option String :=
  if sizes.length > 0 then
    let oversized := (sizes.filter (fun sz => sz > 10 * 1024 * 1024)).length
    let m1 := if oversized > 0 then
        some (Nat.repr oversized ++ " קבצים חורגים מ-10MB") else none
    if sizes.length > 10 then some "ניתן להעלות עד 10 תמונות" else m1
  else none

/-! ## Claim theorems -/

/-- C1: for every client identifier the first three `checkRateLimit` calls
within one 60-minute window are allowed; the fourth within the same window
is denied (and the handler then responds 429 with no further processing);
a call made after the window's reset instant has passed is admitted again
with the counter reset to 1. -/
theorem claim_C1_rate_limit_window (ip : String) (s0 : RLStore) (t1 t2 t3 t4 t5 : Nat)
    (h0 : rlGet s0 ip = none)
    (h2 : t2 ≤ t1 + windowMs) (h3 : t3 ≤ t1 + windowMs) (h4 : t4 ≤ t1 + windowMs)
    (h5 : t1 + windowMs < t5) :
    rlAllowed t1 ip s0 = true ∧
    rlAllowed t2 ip (rlStep t1 ip s0) = true ∧
    rlAllowed t3 ip (rlStep t2 ip (rlStep t1 ip s0)) = true ∧
    rlAllowed t4 ip (rlStep t3 ip (rlStep t2 ip (rlStep t1 ip s0))) = false ∧
    rlGet (rlStep t4 ip (rlStep t3 ip (rlStep t2 ip (rlStep t1 ip s0)))) ip
      = some ⟨3, t1 + windowMs⟩ ∧
    rlAllowed t5 ip (rlStep t4 ip (rlStep t3 ip (rlStep t2 ip (rlStep t1 ip s0)))) = true ∧
    rlGet (rlStep t5 ip (rlStep t4 ip (rlStep t3 ip (rlStep t2 ip (rlStep t1 ip s0))))) ip
      = some ⟨1, t5 + windowMs⟩ ∧
    (∀ (req : Request) (o : Oracle) (s : RLStore),
      req.method ≠ "OPTIONS" → rlAllowed o.now (clientIp req) s = false →
      handler req o s = (.rateLimited, rlStep o.now (clientIp req) s, [])) := by
  have rlStep_eq : ∀ (n : Nat) (j : String) (s : RLStore),
      rlStep n j s = (checkRateLimit n j s).2 := fun _ _ _ => rfl
  have rlAllowed_eq : ∀ (n : Nat) (j : String) (s : RLStore),
      rlAllowed n j s = (checkRateLimit n j s).1 := fun _ _ _ => rfl
  have hc1 : checkRateLimit t1 ip s0 = (true, rlSet s0 ip ⟨1, t1 + windowMs⟩) :=
    checkRateLimit_of_none t1 h0
  have hg1 : rlGet (rlStep t1 ip s0) ip = some ⟨1, t1 + windowMs⟩ := by
    rw [rlStep_eq t1 ip s0, hc1]
    exact rlGet_rlSet_self _ _ _
  have hc2 : checkRateLimit t2 ip (rlStep t1 ip s0)
      = (true, rlSet (rlStep t1 ip s0) ip ⟨2, t1 + windowMs⟩) := by
    simpa using checkRateLimit_of_inc t2 hg1 (by simpa using h2) (by norm_num)
  have hg2 : rlGet (rlStep t2 ip (rlStep t1 ip s0)) ip = some ⟨2, t1 + windowMs⟩ := by
    rw [rlStep_eq t2 ip (rlStep t1 ip s0), hc2]
    exact rlGet_rlSet_self _ _ _
  have hc3 : checkRateLimit t3 ip (rlStep t2 ip (rlStep t1 ip s0))
      = (true, rlSet (rlStep t2 ip (rlStep t1 ip s0)) ip ⟨3, t1 + windowMs⟩) := by
    simpa using checkRateLimit_of_inc t3 hg2 (by simpa using h3) (by norm_num)
  have hg3 : rlGet (rlStep t3 ip (rlStep t2 ip (rlStep t1 ip s0))) ip
      = some ⟨3, t1 + windowMs⟩ := by
    rw [rlStep_eq t3 ip (rlStep t2 ip (rlStep t1 ip s0)), hc3]
    exact rlGet_rlSet_self _ _ _
  have hc4 : checkRateLimit t4 ip (rlStep t3 ip (rlStep t2 ip (rlStep t1 ip s0)))
      = (false, rlStep t3 ip (rlStep t2 ip (rlStep t1 ip s0))) :=
    checkRateLimit_of_full t4 hg3 (by simpa using h4) (by norm_num)
  have hg4 : rlGet (rlStep t4 ip (rlStep t3 ip (rlStep t2 ip (rlStep t1 ip s0)))) ip
      = some ⟨3, t1 + windowMs⟩ := by
    rw [rlStep_eq t4 ip (rlStep t3 ip (rlStep t2 ip (rlStep t1 ip s0))), hc4]
    exact hg3
  have hc5 : checkRateLimit t5 ip
        (rlStep t4 ip (rlStep t3 ip (rlStep t2 ip (rlStep t1 ip s0))))
      = (true, rlSet (rlStep t4 ip (rlStep t3 ip (rlStep t2 ip (rlStep t1 ip s0)))) ip
          ⟨1, t5 + windowMs⟩) :=
    checkRateLimit_of_expired t5 hg4 (by simpa using h5)
  refine ⟨by rw [rlAllowed_eq, hc1], by rw [rlAllowed_eq, hc2], by rw [rlAllowed_eq, hc3],
    by rw [rlAllowed_eq, hc4], hg4, by rw [rlAllowed_eq, hc5], ?_, ?_⟩
  · rw [rlStep_eq t5 ip (rlStep t4 ip (rlStep t3 ip (rlStep t2 ip (rlStep t1 ip s0)))), hc5]
    exact rlGet_rlSet_self _ _ _
  · intro req o s hm hf
    simp only [rlAllowed] at hf
    unfold handler
    rw [if_neg hm]
    simp [hf, rlStep]

/-- C1 witness: with an empty store, calls at 0, 1, 2 are allowed, the call
at 3 is denied, and the call at 3600001 is allowed again. -/
theorem claim_C1_witness :
    rlAllowed 0 "1.2.3.4" [] = true ∧
    rlAllowed 3 "1.2.3.4"
      (rlStep 2 "1.2.3.4" (rlStep 1 "1.2.3.4" (rlStep 0 "1.2.3.4" []))) = false ∧
    rlAllowed 3600001 "1.2.3.4"
      (rlStep 3 "1.2.3.4"
        (rlStep 2 "1.2.3.4" (rlStep 1 "1.2.3.4" (rlStep 0 "1.2.3.4" [])))) = true := by
  have h := claim_C1_rate_limit_window "1.2.3.4" [] 0 1 2 3 3600001 rfl
    (by norm_num [windowMs]) (by norm_num [windowMs]) (by norm_num [windowMs])
    (by norm_num [windowMs])
  exact ⟨h.1, h.2.2.2.1, h.2.2.2.2.2.1⟩

/-- C10: after any sequence of `checkRateLimit` calls with any client
identifiers and any clock values, every entry of the store satisfies
`1 ≤ count ≤ 3`. -/
theorem claim_C10_store_invariant (calls : List (Nat × String)) :
    ∀ p ∈ runRateLimit calls [], 1 ≤ p.2.count ∧ p.2.count ≤ 3 :=
  rlInv_run calls [] (by intro p hp; simp at hp)

/-- C10 witness: two calls from one client leave the entry at count 2. -/
theorem claim_C10_witness :
    1 ≤ (RLEntry.mk 2 3600000).count ∧ (RLEntry.mk 2 3600000).count ≤ 3 :=
  claim_C10_store_invariant [(0, "a"), (1, "a")] ("a", ⟨2, 3600000⟩) (by decide)

/-- C8: sanitization maps every character outside `[A-Za-z0-9.-]` to an
underscore, every storage key obtained after prefixing (both the
single-file and the indexed product-image form) consists solely of
characters of the class `[A-Za-z0-9._-]` and is nonempty, and sanitization
is idempotent. -/
theorem claim_C8_sanitize_roundtrip (now i : Nat) (name : String) :
    (sanitizeFileName name).data
        = name.data.map (fun c => if isAllowedFileChar c then c else '_') ∧
    (mkStorageKey now name).data.all isStorageKeyChar = true ∧
    (mkStorageKey now name).data ≠ [] ∧
    (mkImageKey now i name).data.all isStorageKeyChar = true ∧
    (mkImageKey now i name).data ≠ [] ∧
    sanitizeFileName (sanitizeFileName name) = sanitizeFileName name := by
  have hdig : ∀ (n : Nat), (Nat.repr n).data.all isStorageKeyChar = true := by
    intro n
    rw [List.all_eq_true]
    intro c hc
    have hd := natRepr_digits n c hc
    simp [isStorageKeyChar, Char.isAlphanum, hd]
  have hsan : ∀ (s : String), (sanitizeFileName s).data.all isStorageKeyChar = true := by
    intro s
    rw [List.all_eq_true]
    intro c hc
    exact sanitizeFileName_chars s c hc
  have hdash : (("-" : String)).data.all isStorageKeyChar = true := by decide
  have happ : ∀ (a b : String), (a ++ b).data = a.data ++ b.data := by
    intro a b
    obtain ⟨da⟩ := a
    obtain ⟨db⟩ := b
    rfl
  constructor
  · rfl
  constructor
  · unfold mkStorageKey
    rw [happ, happ, List.all_append, List.all_append, hdig, hdash, hsan]
    rfl
  constructor
  · unfold mkStorageKey
    rw [happ, happ]
    intro hnil
    have : (("-" : String)).data = [] := by
      rcases List.append_eq_nil.mp hnil with ⟨hl, hr⟩
      rcases List.append_eq_nil.mp hl with ⟨_, hdashnil⟩
      exact hdashnil
    simp at this
  constructor
  · unfold mkImageKey
    rw [happ, happ, happ, happ, List.all_append, List.all_append, List.all_append,
      List.all_append, hdig, hdig, hdash, hsan]
    rfl
  constructor
  · unfold mkImageKey
    rw [happ, happ, happ, happ]
    intro hnil
    have : (("-" : String)).data = [] := by
      rcases List.append_eq_nil.mp hnil with ⟨hl, _⟩
      rcases List.append_eq_nil.mp hl with ⟨hl2, _⟩
      rcases List.append_eq_nil.mp hl2 with ⟨hl3, _⟩
      rcases List.append_eq_nil.mp hl3 with ⟨_, hdashnil⟩
      exact hdashnil
    simp at this
  · unfold sanitizeFileName
    congr 1
    rw [List.map_map]
    apply List.map_congr_left
    intro c _
    have hu : isAllowedFileChar '_' = false := by decide
    by_cases hall : isAllowedFileChar c
    · simp [Function.comp, hall]
    · simp [Function.comp, hall, hu]

/-- C9: `escapeHtml` leaves every free-text string in escaped form — the
five characters `&`, `<`, `>`, double quote and apostrophe occur only as
their entity spellings, the latter four never occur raw at all — and
parsing the entities back reproduces the original string exactly. -/
theorem claim_C9_escape_roundtrip (s : String) :
    EscapedForm (escapeHtml s).data ∧
    (escapeHtml s).data.all
      (fun c => !(c = '<' || c = '>' || c = quoteChar || c = aposChar)) = true ∧
    unescapeHtml (escapeHtml s) = s := by
  refine ⟨escapedForm_escapeHtmlList s.data, escapeHtmlList_no_raw s.data, ?_⟩
  show (⟨unescapeHtmlList (escapeHtmlList s.data)⟩ : String) = s
  rw [unescape_escape]

/-- C4: for every file payload, a decoded size over 5 MB fails the slot
with its size-exceeded message regardless of the MIME type; a size within
the bound with a missing or non-allow-listed MIME type fails with the
slot's invalid-type message — both generically for any slot allow-list and
concretely for the logo slot of the pipeline. -/
theorem claim_C4_file_checks (f : DataUrl) (allowedTypes : List String)
    (sizeMsg typeMsg fallbackType : String) :
    (f.content.length * 3 > MAX_FILE_SIZE * 4 →
      inspectFile f allowedTypes sizeMsg typeMsg fallbackType = .error sizeMsg) ∧
    (f.content.length * 3 ≤ MAX_FILE_SIZE * 4 →
      (f.mime = none ∨ ∃ m, f.mime = some m ∧ allowedTypes.contains m = false) →
      inspectFile f allowedTypes sizeMsg typeMsg fallbackType = .error typeMsg) ∧
    (∀ (o : Oracle) (fd : FormData) (nm : String),
      fd.logoFile = some f → fd.logoFileName = some nm → nm ≠ "" →
      f.content.length * 3 > MAX_FILE_SIZE * 4 →
      (processLogo o fd).1 = .error "Logo file size exceeds 5MB limit") ∧
    (∀ (o : Oracle) (fd : FormData) (nm : String),
      fd.logoFile = some f → fd.logoFileName = some nm → nm ≠ "" →
      f.content.length * 3 ≤ MAX_FILE_SIZE * 4 →
      (f.mime = none ∨ ∃ m, f.mime = some m ∧ ALLOWED_MIME_TYPES.contains m = false) →
      (processLogo o fd).1
        = .error ("Invalid logo file type. Allowed types: " ++
            joinComma ALLOWED_MIME_TYPES)) := by
  refine ⟨fun h => inspectFile_size_first f allowedTypes sizeMsg typeMsg fallbackType h,
    fun hsz hm => inspectFile_bad_type f allowedTypes sizeMsg typeMsg fallbackType hsz hm,
    ?_, ?_⟩
  · intro o fd nm hlf hln hnm hsz
    simp only [processLogo, hlf, hln]
    rw [if_neg hnm]
    rw [inspectFile_size_first f ALLOWED_MIME_TYPES _ _ _ hsz]
  · intro o fd nm hlf hln hnm hsz hm
    simp only [processLogo, hlf, hln]
    rw [if_neg hnm]
    rw [inspectFile_bad_type f ALLOWED_MIME_TYPES _ _ _ hsz hm]

/-- A payload whose base64 body decodes to more than 5 MB. -/
def oversizedFile : DataUrl := ⟨some "image/png", ⟨List.replicate 6990508 'A'⟩⟩

/-- A small payload whose declared type is outside every slot allow-list. -/
def badMimeFile : DataUrl := ⟨some "text/plain", "QUJD"⟩

/-- C4 witness: the oversized payload fails with the size message even
though its MIME type is allow-listed, and the small `text/plain` payload
fails with the type message on the catalog allow-list. -/
theorem claim_C4_witness :
    inspectFile oversizedFile ALLOWED_MIME_TYPES "size exceeded" "bad type" "image/jpeg"
        = .error "size exceeded" ∧
    inspectFile badMimeFile ALLOWED_CATALOG_TYPES "size exceeded" "bad type" "application/pdf"
        = .error "bad type" := by
  constructor
  · exact (claim_C4_file_checks oversizedFile ALLOWED_MIME_TYPES
      "size exceeded" "bad type" "image/jpeg").1
      (by
        have hl : oversizedFile.content.length = 6990508 := by
          show (List.replicate 6990508 'A').length = 6990508
          rw [List.length_replicate]
        rw [hl]
        norm_num [MAX_FILE_SIZE])
  · exact (claim_C4_file_checks badMimeFile ALLOWED_CATALOG_TYPES
      "size exceeded" "bad type" "application/pdf").2.1
      (by
        have hl : badMimeFile.content.length = 4 := by decide
        rw [hl]
        norm_num [MAX_FILE_SIZE])
      (Or.inr ⟨"text/plain", rfl, by decide⟩)

/-! ## Error-count lemmas for the validator -/

theorem errCount_append (a b : List FieldError) (f : String) :
    errCount (a ++ b) f = errCount a f + errCount b f := by
  simp [errCount, List.filter_append]

theorem errCount_eq_zero_of_ne (l : List FieldError) (g f : String)
    (hall : ∀ e ∈ l, e.path = g) (hne : f ≠ g) : errCount l f = 0 := by
  unfold errCount
  rw [List.length_eq_zero, List.filter_eq_nil_iff]
  intro e he
  rw [hall e he]
  simp
  exact fun hh => hne hh.symm

theorem mem_ifSingleton {A : Prop} [Decidable A] {x e : FieldError}
    (he : e ∈ (if A then [x] else [])) : e = x := by
  split_ifs at he
  · simpa using he
  · simp at he

theorem reqStrErrors_path (field : String) (v : Option String) (m1 m2 : String) (n : Nat) :
    ∀ e ∈ reqStrErrors field v m1 m2 n, e.path = field := by
  intro e he
  unfold reqStrErrors at he
  cases v with
  | none => simp at he; rw [he]
  | some s =>
    rcases List.mem_append.mp he with h | h
    · rw [mem_ifSingleton h]
    · rw [mem_ifSingleton h]

theorem emailErrors_path (field : String) (v : Option String) :
    ∀ e ∈ emailErrors field v, e.path = field := by
  intro e he
  unfold emailErrors at he
  cases v with
  | none => simp at he; rw [he]
  | some s =>
    rcases List.mem_append.mp he with h | h
    · rw [mem_ifSingleton h]
    · rw [mem_ifSingleton h]

theorem reqArrErrors_path (field : String) (v : Option (List String)) (m1 m2 : String) :
    ∀ e ∈ reqArrErrors field v m1 m2, e.path = field := by
  intro e he
  unfold reqArrErrors at he
  cases v with
  | none => simp at he; rw [he]
  | some l =>
    rcases List.mem_append.mp he with h | h
    · rw [mem_ifSingleton h]
    · rw [mem_ifSingleton h]

theorem optBoundedErrors_path (field : String) (v : Option String) (n : Nat) :
    ∀ e ∈ optBoundedErrors field v n, e.path = field := by
  intro e he
  cases v with
  | none => simp [optBoundedErrors] at he
  | some s =>
    have he' : e ∈ (if (jsTrim s).length ≤ n then ([] : List FieldError)
        else if s = "" then [] else [⟨field, "Invalid input"⟩]) := he
    split_ifs at he'
    · simp at he'
    · simp at he'
    · simp at he'; rw [he']

theorem enumErrors_path (field : String) (v : Option String) (allowed : List String) :
    ∀ e ∈ enumErrors field v allowed, e.path = field := by
  intro e he
  cases v with
  | none => simp [enumErrors] at he
  | some s =>
    have he' : e ∈ (if allowed.contains s then ([] : List FieldError)
        else [⟨field, "Invalid enum value"⟩]) := he
    split_ifs at he'
    · simp at he'
    · simp at he'; rw [he']

theorem errCount_reqStr_ne (f field : String) (v : Option String) (m1 m2 : String)
    (n : Nat) (h : ¬ f = field) : errCount (reqStrErrors field v m1 m2 n) f = 0 :=
  errCount_eq_zero_of_ne _ _ _ (reqStrErrors_path field v m1 m2 n) h

theorem errCount_email_ne (f field : String) (v : Option String)
    (h : ¬ f = field) : errCount (emailErrors field v) f = 0 :=
  errCount_eq_zero_of_ne _ _ _ (emailErrors_path field v) h

theorem errCount_reqArr_ne (f field : String) (v : Option (List String)) (m1 m2 : String)
    (h : ¬ f = field) : errCount (reqArrErrors field v m1 m2) f = 0 :=
  errCount_eq_zero_of_ne _ _ _ (reqArrErrors_path field v m1 m2) h

theorem errCount_optB_ne (f field : String) (v : Option String) (n : Nat)
    (h : ¬ f = field) : errCount (optBoundedErrors field v n) f = 0 :=
  errCount_eq_zero_of_ne _ _ _ (optBoundedErrors_path field v n) h

theorem errCount_enum_ne (f field : String) (v : Option String) (allowed : List String)
    (h : ¬ f = field) : errCount (enumErrors field v allowed) f = 0 :=
  errCount_eq_zero_of_ne _ _ _ (enumErrors_path field v allowed) h

theorem errCount_collect (r : RawSubmission) (f : String) :
    errCount (collectErrors r) f =
      errCount (reqStrErrors "businessName" r.businessName
        "Business name is required" "Business name too long" 200) f +
      errCount (optBoundedErrors "companyId" r.companyId 50) f +
      errCount (reqStrErrors "contactName" r.contactName
        "Contact name is required" "Contact name too long" 100) f +
      errCount (reqStrErrors "phone" r.phone "Phone is required" "Phone number too long" 20) f +
      errCount (emailErrors "email" r.email) f +
      errCount (reqStrErrors "about" r.about
        "About section is required" "About section too long" 2000) f +
      errCount (reqArrErrors "categories" r.categories
        "At least one category required" "Too many categories") f +
      errCount (reqArrErrors "activityAreas" r.activityAreas
        "At least one activity area required" "Too many activity areas") f +
      errCount (optBoundedErrors "website" r.website 500) f +
      errCount (optBoundedErrors "instagram" r.instagram 500) f +
      errCount (reqStrErrors "mainAddress" r.mainAddress
        "Main address is required" "Main address text too long" 500) f +
      errCount (enumErrors "productCatalogType" r.productCatalogType
        ["text", "file", "drive", ""]) f +
      errCount (optBoundedErrors "productCatalogText" r.productCatalogText 5000) f +
      errCount (optBoundedErrors "productCatalogDriveLink" r.productCatalogDriveLink 1000) f := by
  unfold collectErrors
  simp only [errCount_append]

/-- A string of length zero is the empty string. -/
theorem string_eq_empty_of_len {s : String} (h : s.length = 0) : s = "" := by
  obtain ⟨d⟩ := s
  have hd : d = [] := List.length_eq_zero.mp h
  rw [hd]

/-- A required string field is missing: absent, or blank after trimming. -/
def missingStr (v : Option String) : Prop :=
  v = none ∨ ∃ s, v = some s ∧ (jsTrim s).length = 0

/-- A required string field is satisfied: present, nonblank after trimming
and within its length bound. -/
def satisfiedStr (v : Option String) (maxLen : Nat) : Prop :=
  ∃ s, v = some s ∧ 1 ≤ (jsTrim s).length ∧ (jsTrim s).length ≤ maxLen

/-- The email field is satisfied: present, a valid address, within bound. -/
def satisfiedEmail (v : Option String) : Prop :=
  ∃ s, v = some s ∧ isValidEmail (jsTrim s) = true ∧ (jsTrim s).length ≤ 255

/-- A required array field is missing: absent or empty. -/
def missingArr (v : Option (List String)) : Prop :=
  v = none ∨ v = some []

/-- A required array field is satisfied: present with 1 to 20 entries. -/
def satisfiedArr (v : Option (List String)) : Prop :=
  ∃ l, v = some l ∧ 1 ≤ l.length ∧ l.length ≤ 20

theorem isValidEmail_empty : isValidEmail "" = false := rfl

theorem errCount_reqStr_missing (field : String) (v : Option String) (m1 m2 : String)
    (n : Nat) (h : missingStr v) : errCount (reqStrErrors field v m1 m2 n) field = 1 := by
  rcases h with rfl | ⟨s, rfl, hs⟩
  · simp [reqStrErrors, errCount]
  · have hlt : (jsTrim s).length < 1 := by omega
    have hng : ¬ ((jsTrim s).length > n) := by omega
    simp [reqStrErrors, errCount, hlt, hng]

theorem errCount_reqStr_ok (field : String) (v : Option String) (m1 m2 : String)
    (n : Nat) (h : satisfiedStr v n) : errCount (reqStrErrors field v m1 m2 n) field = 0 := by
  obtain ⟨s, rfl, h1, h2⟩ := h
  have hn1 : ¬ ((jsTrim s).length < 1) := by omega
  have hn2 : ¬ ((jsTrim s).length > n) := by omega
  simp [reqStrErrors, errCount, hn1, hn2]

theorem errCount_email_missing (v : Option String) (h : missingStr v) :
    errCount (emailErrors "email" v) "email" = 1 := by
  rcases h with rfl | ⟨s, rfl, hs⟩
  · simp [emailErrors, errCount]
  · have hemp : jsTrim s = "" := string_eq_empty_of_len hs
    have hval : isValidEmail (jsTrim s) = false := by rw [hemp]; rfl
    have hng : ¬ ((jsTrim s).length > 255) := by omega
    simp [emailErrors, errCount, hval, hng]

theorem errCount_email_ok (v : Option String) (h : satisfiedEmail v) :
    errCount (emailErrors "email" v) "email" = 0 := by
  obtain ⟨s, rfl, hv, hle⟩ := h
  have hng : ¬ ((jsTrim s).length > 255) := by omega
  simp [emailErrors, errCount, hv, hng]

theorem errCount_reqArr_missing (field : String) (v : Option (List String)) (m1 m2 : String)
    (h : missingArr v) : errCount (reqArrErrors field v m1 m2) field = 1 := by
  rcases h with rfl | rfl
  · simp [reqArrErrors, errCount]
  · simp [reqArrErrors, errCount]

theorem errCount_reqArr_ok (field : String) (v : Option (List String)) (m1 m2 : String)
    (h : satisfiedArr v) : errCount (reqArrErrors field v m1 m2) field = 0 := by
  obtain ⟨l, rfl, h1, h2⟩ := h
  have hn1 : ¬ (l.length < 1) := by omega
  have hn2 : ¬ (l.length > 20) := by omega
  simp [reqArrErrors, errCount, hn1, hn2]

theorem validateSupplier_error_of_count {r : RawSubmission} {f : String}
    (h : errCount (collectErrors r) f = 1) :
    validateSupplier r = .error (collectErrors r) ∧ collectErrors r ≠ [] := by
  cases hc : collectErrors r with
  | nil => rw [hc] at h; simp [errCount] at h
  | cons e rest =>
    constructor
    · unfold validateSupplier
      rw [hc]
    · simp

/-- C5: for every submission missing one or more required fields, the
parse fails (and the handler returns the 400 validation response with no
side effect performed), the field-error list contains exactly one entry for
each required field that is missing, and no entry for any satisfied
field. -/
theorem claim_C5_validation_errors (r : RawSubmission) :
    (missingStr r.businessName → errCount (collectErrors r) "businessName" = 1) ∧
    (satisfiedStr r.businessName 200 → errCount (collectErrors r) "businessName" = 0) ∧
    (missingStr r.contactName → errCount (collectErrors r) "contactName" = 1) ∧
    (satisfiedStr r.contactName 100 → errCount (collectErrors r) "contactName" = 0) ∧
    (missingStr r.phone → errCount (collectErrors r) "phone" = 1) ∧
    (satisfiedStr r.phone 20 → errCount (collectErrors r) "phone" = 0) ∧
    (missingStr r.email → errCount (collectErrors r) "email" = 1) ∧
    (satisfiedEmail r.email → errCount (collectErrors r) "email" = 0) ∧
    (missingStr r.about → errCount (collectErrors r) "about" = 1) ∧
    (satisfiedStr r.about 2000 → errCount (collectErrors r) "about" = 0) ∧
    (missingStr r.mainAddress → errCount (collectErrors r) "mainAddress" = 1) ∧
    (satisfiedStr r.mainAddress 500 → errCount (collectErrors r) "mainAddress" = 0) ∧
    (missingArr r.categories → errCount (collectErrors r) "categories" = 1) ∧
    (satisfiedArr r.categories → errCount (collectErrors r) "categories" = 0) ∧
    (missingArr r.activityAreas → errCount (collectErrors r) "activityAreas" = 1) ∧
    (satisfiedArr r.activityAreas → errCount (collectErrors r) "activityAreas" = 0) ∧
    ((missingStr r.businessName ∨ missingStr r.contactName ∨ missingStr r.phone ∨
      missingStr r.email ∨ missingStr r.about ∨ missingStr r.mainAddress ∨
      missingArr r.categories ∨ missingArr r.activityAreas) →
      validateSupplier r = .error (collectErrors r) ∧ collectErrors r ≠ []) ∧
    (∀ (req : Request) (o : Oracle) (s : RLStore) (errs : List FieldError),
      req.method ≠ "OPTIONS" → rlAllowed o.now (clientIp req) s = true →
      req.body = .ok r → validateSupplier r = .error errs →
      handler req o s = (.validationFailed errs, rlStep o.now (clientIp req) s, [])) := by
  have t1 : missingStr r.businessName → errCount (collectErrors r) "businessName" = 1 := by
    intro h
    rw [errCount_collect, errCount_reqStr_missing _ _ _ _ _ h]
    simp [errCount_reqStr_ne, errCount_optB_ne, errCount_email_ne, errCount_reqArr_ne,
      errCount_enum_ne]
  have t2 : satisfiedStr r.businessName 200 → errCount (collectErrors r) "businessName" = 0 := by
    intro h
    rw [errCount_collect, errCount_reqStr_ok _ _ _ _ _ h]
    simp [errCount_reqStr_ne, errCount_optB_ne, errCount_email_ne, errCount_reqArr_ne,
      errCount_enum_ne]
  have t3 : missingStr r.contactName → errCount (collectErrors r) "contactName" = 1 := by
    intro h
    rw [errCount_collect, errCount_reqStr_missing _ _ _ _ _ h]
    simp [errCount_reqStr_ne, errCount_optB_ne, errCount_email_ne, errCount_reqArr_ne,
      errCount_enum_ne]
  have t4 : satisfiedStr r.contactName 100 → errCount (collectErrors r) "contactName" = 0 := by
    intro h
    rw [errCount_collect, errCount_reqStr_ok _ _ _ _ _ h]
    simp [errCount_reqStr_ne, errCount_optB_ne, errCount_email_ne, errCount_reqArr_ne,
      errCount_enum_ne]
  have t5 : missingStr r.phone → errCount (collectErrors r) "phone" = 1 := by
    intro h
    rw [errCount_collect, errCount_reqStr_missing _ _ _ _ _ h]
    simp [errCount_reqStr_ne, errCount_optB_ne, errCount_email_ne, errCount_reqArr_ne,
      errCount_enum_ne]
  have t6 : satisfiedStr r.phone 20 → errCount (collectErrors r) "phone" = 0 := by
    intro h
    rw [errCount_collect, errCount_reqStr_ok _ _ _ _ _ h]
    simp [errCount_reqStr_ne, errCount_optB_ne, errCount_email_ne, errCount_reqArr_ne,
      errCount_enum_ne]
  have t7 : missingStr r.email → errCount (collectErrors r) "email" = 1 := by
    intro h
    rw [errCount_collect, errCount_email_missing _ h]
    simp [errCount_reqStr_ne, errCount_optB_ne, errCount_reqArr_ne, errCount_enum_ne]
  have t8 : satisfiedEmail r.email → errCount (collectErrors r) "email" = 0 := by
    intro h
    rw [errCount_collect, errCount_email_ok _ h]
    simp [errCount_reqStr_ne, errCount_optB_ne, errCount_reqArr_ne, errCount_enum_ne]
  have t9 : missingStr r.about → errCount (collectErrors r) "about" = 1 := by
    intro h
    rw [errCount_collect, errCount_reqStr_missing _ _ _ _ _ h]
    simp [errCount_reqStr_ne, errCount_optB_ne, errCount_email_ne, errCount_reqArr_ne,
      errCount_enum_ne]
  have t10 : satisfiedStr r.about 2000 → errCount (collectErrors r) "about" = 0 := by
    intro h
    rw [errCount_collect, errCount_reqStr_ok _ _ _ _ _ h]
    simp [errCount_reqStr_ne, errCount_optB_ne, errCount_email_ne, errCount_reqArr_ne,
      errCount_enum_ne]
  have t11 : missingStr r.mainAddress → errCount (collectErrors r) "mainAddress" = 1 := by
    intro h
    rw [errCount_collect, errCount_reqStr_missing _ _ _ _ _ h]
    simp [errCount_reqStr_ne, errCount_optB_ne, errCount_email_ne, errCount_reqArr_ne,
      errCount_enum_ne]
  have t12 : satisfiedStr r.mainAddress 500 → errCount (collectErrors r) "mainAddress" = 0 := by
    intro h
    rw [errCount_collect, errCount_reqStr_ok _ _ _ _ _ h]
    simp [errCount_reqStr_ne, errCount_optB_ne, errCount_email_ne, errCount_reqArr_ne,
      errCount_enum_ne]
  have t13 : missingArr r.categories → errCount (collectErrors r) "categories" = 1 := by
    intro h
    rw [errCount_collect, errCount_reqArr_missing _ _ _ _ h]
    simp [errCount_reqStr_ne, errCount_optB_ne, errCount_email_ne, errCount_reqArr_ne,
      errCount_enum_ne]
  have t14 : satisfiedArr r.categories → errCount (collectErrors r) "categories" = 0 := by
    intro h
    rw [errCount_collect, errCount_reqArr_ok _ _ _ _ h]
    simp [errCount_reqStr_ne, errCount_optB_ne, errCount_email_ne, errCount_reqArr_ne,
      errCount_enum_ne]
  have t15 : missingArr r.activityAreas → errCount (collectErrors r) "activityAreas" = 1 := by
    intro h
    rw [errCount_collect, errCount_reqArr_missing _ _ _ _ h]
    simp [errCount_reqStr_ne, errCount_optB_ne, errCount_email_ne, errCount_reqArr_ne,
      errCount_enum_ne]
  have t16 : satisfiedArr r.activityAreas → errCount (collectErrors r) "activityAreas" = 0 := by
    intro h
    rw [errCount_collect, errCount_reqArr_ok _ _ _ _ h]
    simp [errCount_reqStr_ne, errCount_optB_ne, errCount_email_ne, errCount_reqArr_ne,
      errCount_enum_ne]
  have tex : (missingStr r.businessName ∨ missingStr r.contactName ∨ missingStr r.phone ∨
      missingStr r.email ∨ missingStr r.about ∨ missingStr r.mainAddress ∨
      missingArr r.categories ∨ missingArr r.activityAreas) →
      validateSupplier r = .error (collectErrors r) ∧ collectErrors r ≠ [] := by
    intro h
    rcases h with h | h | h | h | h | h | h | h
    exacts [validateSupplier_error_of_count (t1 h), validateSupplier_error_of_count (t3 h),
      validateSupplier_error_of_count (t5 h), validateSupplier_error_of_count (t7 h),
      validateSupplier_error_of_count (t9 h), validateSupplier_error_of_count (t11 h),
      validateSupplier_error_of_count (t13 h), validateSupplier_error_of_count (t15 h)]
  have thand : ∀ (req : Request) (o : Oracle) (s : RLStore) (errs : List FieldError),
      req.method ≠ "OPTIONS" → rlAllowed o.now (clientIp req) s = true →
      req.body = .ok r → validateSupplier r = .error errs →
      handler req o s = (.validationFailed errs, rlStep o.now (clientIp req) s, []) := by
    intro req o s errs hm hg hb hv
    simp only [rlAllowed] at hg
    unfold handler
    rw [if_neg hm]
    simp [hg, hb, hv, rlStep]
  exact ⟨t1, t2, t3, t4, t5, t6, t7, t8, t9, t10, t11, t12, t13, t14, t15, t16, tex, thand⟩

/-- The raw submission with every field absent. -/
def rAllMissing : RawSubmission :=
  ⟨none, none, none, none, none, none, none, none, none, none,
   none, none, none, none, none, none, none, none, none, none⟩

/-- C5 witness: the all-absent submission fails validation with exactly one
entry for each required field. -/
theorem claim_C5_witness :
    errCount (collectErrors rAllMissing) "businessName" = 1 ∧
    errCount (collectErrors rAllMissing) "email" = 1 ∧
    errCount (collectErrors rAllMissing) "categories" = 1 ∧
    validateSupplier rAllMissing = .error (collectErrors rAllMissing) := by
  obtain ⟨h1, _, _, _, _, _, h7, _, _, _, _, _, h13, _, _, _, hex, _⟩ :=
    claim_C5_validation_errors rAllMissing
  exact ⟨h1 (Or.inl rfl), h7 (Or.inl rfl), h13 (Or.inl rfl), (hex (Or.inl (Or.inl rfl))).1⟩

/-- C6: every message thrown during parsing, validation-era work, uploads
or persistence is caught at the top level and mapped to the 500-class
`processingFailed` result; the outward message is the generic string unless
the internal message contains one of the allow-listed substrings `"file"`,
`"Invalid"`, `"limit"`, `"Too many"`, in which case the internal message is
surfaced. -/
theorem claim_C6_catch_classification (msg : String) :
    ((strIncludes msg "file" || strIncludes msg "Invalid" || strIncludes msg "limit" ||
        strIncludes msg "Too many") = true → classifyError msg = msg) ∧
    ((strIncludes msg "file" || strIncludes msg "Invalid" || strIncludes msg "limit" ||
        strIncludes msg "Too many") = false →
      classifyError msg = "An error occurred while processing your request") ∧
    (∀ (req : Request) (o : Oracle) (s : RLStore),
      req.method ≠ "OPTIONS" → rlAllowed o.now (clientIp req) s = true →
      req.body = .error msg →
      handler req o s
        = (.processingFailed (classifyError msg), rlStep o.now (clientIp req) s, [])) ∧
    (∀ (req : Request) (o : Oracle) (s : RLStore) (raw : RawSubmission) (fd : FormData)
        (eff : List Effect),
      req.method ≠ "OPTIONS" → rlAllowed o.now (clientIp req) s = true →
      req.body = .ok raw → validateSupplier raw = .ok fd →
      handlerBody o fd = (.error msg, eff) →
      handler req o s
        = (.processingFailed (classifyError msg), rlStep o.now (clientIp req) s, eff)) := by
  refine ⟨?_, ?_, ?_, ?_⟩
  · intro h
    unfold classifyError
    rw [if_pos h]
  · intro h
    unfold classifyError
    rw [if_neg (by rw [h]; simp)]
  · intro req o s hm hg hb
    simp only [rlAllowed] at hg
    unfold handler
    rw [if_neg hm]
    simp [hg, hb, rlStep]
  · intro req o s raw fd eff hm hg hb hv hbody
    simp only [rlAllowed] at hg
    unfold handler
    rw [if_neg hm]
    simp [hg, hb, hv, hbody, rlStep]

/-- C6 witness: a size-limit message is surfaced verbatim while an unknown
internal message is replaced by the generic string. -/
theorem claim_C6_witness :
    classifyError "Logo file size exceeds 5MB limit" = "Logo file size exceeds 5MB limit" ∧
    classifyError "boom" = "An error occurred while processing your request" := by
  constructor
  · exact (claim_C6_catch_classification "Logo file size exceeds 5MB limit").1 (by decide)
  · exact (claim_C6_catch_classification "boom").2.1 (by decide)

theorem processImages_email_oracle (o : Oracle) (e1 e2 : Except String Unit)
    (files : List DataUrl) (names : List String) (i : Nat) :
    processImages { o with adminEmail := e1, customerEmail := e2 } files names i
      = processImages o files names i := by
  induction files generalizing i with
  | nil => rfl
  | cons f rest ih =>
    simp only [processImages]
    rw [ih]

/-- C7: once the record is persisted, the notification outcomes are
irrelevant — the whole body result is unchanged under any admin/customer
email outcomes, and when every upstream step and the insert succeed the
handler body returns the 200 success result with the persisted record's
id. -/
theorem claim_C7_email_failure_swallowed (o : Oracle) (fd : FormData)
    (e1 e2 : Except String Unit) :
    (handlerBody { o with adminEmail := e1, customerEmail := e2 } fd = handlerBody o fd) ∧
    (∀ (lu : Option String) (urls : List String) (cu : Option String) (sid : Nat)
        (efL efI efC : List Effect),
      processLogo o fd = (.ok lu, efL) →
      processImages o fd.productImagesFiles fd.productImagesFileNames 0 = (.ok urls, efI) →
      processCatalog o fd = (.ok cu, efC) →
      o.dbResult = .ok sid →
      (handlerBody o fd).1 = .ok (.success sid)) := by
  constructor
  · unfold handlerBody
    rw [processImages_email_oracle]
    rfl
  · intro lu urls cu sid efL efI efC hL hI hC hdb
    unfold handlerBody
    rw [hL, hI, hC, hdb]

/-- The oracle of the witnesses: both notification sends fail, everything
else succeeds, the insert returns id 42. -/
def oEx : Oracle :=
  ⟨0, .ok (), fun _ => .ok (), .ok (), .ok 42, .error "smtp down", .error "net down"⟩

/-- A minimal validated submission without any file slot. -/
def fdEx : FormData :=
  ⟨"Biz", none, "Dana", "050", "a@b.co", "about", ["cat"], ["north"], none, none,
   "addr", none, none, [], [], none, none, none, none, none⟩

/-- C7 witness: with both email sends failing and persistence succeeding,
the body still returns 200 success with the persisted id. -/
theorem claim_C7_witness : (handlerBody oEx fdEx).1 = .ok (.success 42) :=
  (claim_C7_email_failure_swallowed oEx fdEx (.error "smtp down") (.error "net down")).2
    none [] none 42 [] [] [] rfl rfl rfl rfl

/-- C2 (amended): the three catalog fields of the persisted record are
computed independently of one another and of the declared
`productCatalogType` — the file URL is stored iff a catalog file was
uploaded, the literal text iff nonempty text was given, the literal link
iff a nonempty link was given; in particular, when exactly one payload is
supplied, exactly that field is non-null. -/
theorem claim_C2_catalog_persistence (o : Oracle) (fd : FormData) (lu : Option String)
    (urls : List String) (cu : Option String) :
    ((mkRecord fd lu urls cu).product_catalog_text = orNullOpt fd.productCatalogText ∧
     (mkRecord fd lu urls cu).product_catalog_url = cu ∧
     (mkRecord fd lu urls cu).product_catalog_drive_link
       = orNullOpt fd.productCatalogDriveLink) ∧
    (∀ ty, processCatalog o { fd with productCatalogType := ty } = processCatalog o fd ∧
      mkRecord { fd with productCatalogType := ty } lu urls cu = mkRecord fd lu urls cu) ∧
    (fd.productCatalogFile = none → (processCatalog o fd).1 = .ok none) ∧
    (∀ f nm m, fd.productCatalogFile = some f → fd.productCatalogFileName = some nm →
      nm ≠ "" → validateFileSize f = true → f.mime = some m →
      ALLOWED_CATALOG_TYPES.contains m = true → o.catalogUpload = .ok () →
      (processCatalog o fd).1
        = .ok (some (mkPublicUrl "supplier-products" (mkStorageKey o.now nm)))) ∧
    (∀ t cu', fd.productCatalogFile = none → orNullOpt fd.productCatalogText = some t →
      orNullOpt fd.productCatalogDriveLink = none → (processCatalog o fd).1 = .ok cu' →
      (mkRecord fd lu urls cu').product_catalog_text = some t ∧
      (mkRecord fd lu urls cu').product_catalog_url = none ∧
      (mkRecord fd lu urls cu').product_catalog_drive_link = none) ∧
    (∀ d cu', fd.productCatalogFile = none → orNullOpt fd.productCatalogText = none →
      orNullOpt fd.productCatalogDriveLink = some d → (processCatalog o fd).1 = .ok cu' →
      (mkRecord fd lu urls cu').product_catalog_text = none ∧
      (mkRecord fd lu urls cu').product_catalog_url = none ∧
      (mkRecord fd lu urls cu').product_catalog_drive_link = some d) ∧
    (∀ u, orNullOpt fd.productCatalogText = none →
      orNullOpt fd.productCatalogDriveLink = none →
      (mkRecord fd lu urls (some u)).product_catalog_text = none ∧
      (mkRecord fd lu urls (some u)).product_catalog_url = some u ∧
      (mkRecord fd lu urls (some u)).product_catalog_drive_link = none) := by
  refine ⟨⟨rfl, rfl, rfl⟩, fun ty => ⟨rfl, rfl⟩, ?_, ?_, ?_, ?_, ?_⟩
  · intro hf
    simp [processCatalog, hf]
  · intro f nm m hf hn hnm hsz hm hmem hup
    simp only [processCatalog, hf, hn]
    rw [if_neg hnm]
    rw [show inspectFile f ALLOWED_CATALOG_TYPES "Product catalog file size exceeds 5MB limit"
        ("Invalid catalog file type. Allowed types: " ++ joinComma ALLOWED_CATALOG_TYPES)
        "application/pdf" = .ok m from by
      unfold inspectFile validateFileMimeType
      have hmem' : m ∈ ALLOWED_CATALOG_TYPES := by
        have := List.mem_of_elem_eq_true hmem
        exact this
      simp [hsz, hm, hmem']]
    rw [hup]
  · intro t cu' hf ht hd hc
    have hcu : cu' = none := by
      have h0 : (processCatalog o fd).1 = .ok none := by simp [processCatalog, hf]
      rw [h0] at hc
      injection hc.symm
    subst hcu
    exact ⟨by simp [mkRecord, ht], rfl, by simp [mkRecord, hd]⟩
  · intro d cu' hf ht hd hc
    have hcu : cu' = none := by
      have h0 : (processCatalog o fd).1 = .ok none := by simp [processCatalog, hf]
      rw [h0] at hc
      injection hc.symm
    subst hcu
    exact ⟨by simp [mkRecord, ht], rfl, by simp [mkRecord, hd]⟩
  · intro u ht hd
    exact ⟨by simp [mkRecord, ht], rfl, by simp [mkRecord, hd]⟩

/-- Form data declaring catalog mode `"text"` while also carrying a
nonempty drive link. -/
def fdTextAndDrive : FormData :=
  ⟨"Biz", none, "Dana", "050", "a@b.co", "about", ["cat"], ["north"], none, none,
   "addr", none, none, [], [], some "text", some "desc", none, none, some "http://drive"⟩

/-- C2 counterexample: with declared mode `"text"` the persisted record
still carries the drive link alongside the text — the other catalog fields
are not null, refuting the claim as stated. -/
theorem claim_C2_counterexample :
    fdTextAndDrive.productCatalogType = some "text" ∧
    (processCatalog oEx fdTextAndDrive).1 = .ok none ∧
    (mkRecord fdTextAndDrive none [] none).product_catalog_text = some "desc" ∧
    (mkRecord fdTextAndDrive none [] none).product_catalog_drive_link = some "http://drive" :=
  ⟨rfl, rfl, rfl, rfl⟩

/-- C2 witness: a text-only submission persists exactly the text field. -/
theorem claim_C2_witness :
    (mkRecord fdEx none [] none).product_catalog_text = none ∧
    (processCatalog oEx { fdEx with productCatalogText := some "only text" }).1 = .ok none ∧
    (mkRecord { fdEx with productCatalogText := some "only text" } none [] none).product_catalog_text
      = some "only text" ∧
    (mkRecord { fdEx with productCatalogText := some "only text" } none [] none).product_catalog_url
      = none ∧
    (mkRecord { fdEx with productCatalogText := some "only text" } none [] none).product_catalog_drive_link
      = none := by
  have h := claim_C2_catalog_persistence oEx { fdEx with productCatalogText := some "only text" }
    none [] none
  have hc := h.2.2.1 rfl
  have hx := h.2.2.2.2.1 "only text" none rfl rfl rfl hc
  exact ⟨rfl, hc, hx.1, hx.2.1, hx.2.2⟩

/-- The URLs the product-image loop is expected to collect for `count`
files starting at index `i`, in input order. -/
def expectedImageUrls (o : Oracle) (names : List String) (i : Nat) : Nat → List String
  | 0 => []
  | count + 1 =>
    mkPublicUrl "supplier-products" (mkImageKey o.now i (imageName names i)) ::
      expectedImageUrls o names (i + 1) count

/-- C3 (amended): the server-side pipeline enforces no cap on the number of
product images — the schema never reports an issue for the
`productImagesFiles` path and the loop uploads every valid image — while
the 10-image cap exists only in the client form's `validateForm`; for every
processed submission, images are inspected and uploaded in input order and
the collected URLs are in the same order as the input array. -/
theorem claim_C3_images_no_cap_order (o : Oracle) (r : RawSubmission)
    (files : List DataUrl) (names : List String) :
    errCount (collectErrors r) "productImagesFiles" = 0 ∧
    (∀ sizes : List Nat, sizes.length > 10 →
      clientProductImagesError sizes = some "ניתן להעלות עד 10 תמונות") ∧
    ((∀ f ∈ files, validateFileSize f = true ∧
        ∃ m, f.mime = some m ∧ ALLOWED_MIME_TYPES.contains m = true) →
      (∀ i, o.imageUpload i = .ok ()) →
      ∀ i, (processImages o files names i).1
        = .ok (expectedImageUrls o names i files.length)) ∧
    (∀ count i, (expectedImageUrls o names i count).length = count) ∧
    (∀ count i j, j < count →
      (expectedImageUrls o names i count).getD j ""
        = mkPublicUrl "supplier-products"
            (mkImageKey o.now (i + j) (imageName names (i + j)))) := by
  have hlen : ∀ count i, (expectedImageUrls o names i count).length = count := by
    intro count
    induction count with
    | zero => intro i; rfl
    | succ n ih =>
      intro i
      simp only [expectedImageUrls, List.length_cons, ih]
  refine ⟨?_, ?_, ?_, hlen, ?_⟩
  · rw [errCount_collect]
    simp [errCount_reqStr_ne, errCount_optB_ne, errCount_email_ne, errCount_reqArr_ne,
      errCount_enum_ne]
  · intro sizes h
    have h0 : sizes.length > 0 := by omega
    simp [clientProductImagesError, h0, h]
  · intro hval hup
    induction files with
    | nil => intro i; rfl
    | cons f rest ih =>
      intro i
      obtain ⟨hsz, m, hm, hmem⟩ := hval f (List.mem_cons_self _ _)
      have hins : inspectFile f ALLOWED_MIME_TYPES
          ("Product image " ++ Nat.repr (i + 1) ++ " exceeds 5MB limit")
          ("Invalid file type for product image " ++ Nat.repr (i + 1) ++
            ". Allowed: " ++ joinComma ALLOWED_MIME_TYPES)
          "image/jpeg" = .ok m := by
        unfold inspectFile validateFileMimeType
        have hmem' : m ∈ ALLOWED_MIME_TYPES := List.mem_of_elem_eq_true hmem
        simp [hsz, hm, hmem']
      have ihr := ih (fun g hg => hval g (List.mem_cons_of_mem _ hg)) (i + 1)
      simp only [processImages, hins, hup i]
      cases hpi : processImages o rest names (i + 1) with
      | mk res effs =>
        rw [hpi] at ihr
        simp only at ihr
        rw [ihr]
        rfl
  · intro count
    induction count with
    | zero => intro i j hj; omega
    | succ n ih =>
      intro i j hj
      cases j with
      | zero => simp [expectedImageUrls]
      | succ k =>
        have harith : i + (k + 1) = (i + 1) + k := by omega
        rw [harith]
        simp only [expectedImageUrls, List.getD_cons_succ]
        exact ih (i + 1) k (by omega)

/-- A small valid PNG payload. -/
def mkPngFile : DataUrl := ⟨some "image/png", "AAAA"⟩

/-- Eleven product-image payloads, one more than the documented cap. -/
def files11 : List DataUrl := List.replicate 11 mkPngFile

/-- An otherwise-valid raw submission carrying eleven product images. -/
def raw11 : RawSubmission :=
  ⟨some "Biz", none, some "Dana", some "050", some "a@b.co", some "about",
   some ["cat"], some ["north"], none, none, some "addr", none, none,
   some files11, none, none, none, none, none, none⟩

/-- C3 counterexample: the eleven-image submission passes schema validation
and the processing loop accepts and uploads all eleven images, so the cap
of 10 is not enforced on the processing path. -/
theorem claim_C3_counterexample :
    validateSupplier raw11 = .ok (buildFormData raw11) ∧
    (buildFormData raw11).productImagesFiles.length = 11 ∧
    (processImages oEx (buildFormData raw11).productImagesFiles
        (buildFormData raw11).productImagesFileNames 0).1
      = .ok (expectedImageUrls oEx (buildFormData raw11).productImagesFileNames 0 11) ∧
    (expectedImageUrls oEx (buildFormData raw11).productImagesFileNames 0 11).length = 11 := by
  refine ⟨rfl, by decide, rfl, by decide⟩

/-- Two product-image payloads. -/
def files2 : List DataUrl := [mkPngFile, mkPngFile]

/-- C3 witness: two valid images are uploaded in input order with the URLs
collected in the same order, and the client-side check rejects an
eleven-image selection. -/
theorem claim_C3_witness :
    (processImages oEx files2 [] 0).1 = .ok (expectedImageUrls oEx [] 0 2) ∧
    clientProductImagesError (List.replicate 11 1000) = some "ניתן להעלות עד 10 תמונות" := by
  have h := claim_C3_images_no_cap_order oEx rAllMissing files2 []
  constructor
  · have hv : ∀ f ∈ files2, validateFileSize f = true ∧
        ∃ m, f.mime = some m ∧ ALLOWED_MIME_TYPES.contains m = true := by
      intro f hf
      have : f = mkPngFile := by
        rcases List.mem_cons.mp hf with h1 | h1
        · exact h1
        · rcases List.mem_cons.mp h1 with h2 | h2
          · exact h2
          · simp at h2
      rw [this]
      exact ⟨by decide, "image/png", rfl, by decide⟩
    exact h.2.2.1 hv (fun i => rfl) 0
  · exact h.2.1 (List.replicate 11 1000) (by simp)
